import Mathlib

/-!
Verification of the spot-rl-example control code: a shallow embedding of
`utils/dict_tools.py`, `utils/event_divider.py`, `hid/gamepad.py`,
`orbit/observations.py`, `orbit/orbit_configuration.py` and
`orbit/onnx_command_generator.py`, with theorems settling the spec claims.
Python floats are modelled by `ℚ` (all the constants involved are dyadic,
so the rational model is exact on the inputs examined), Python dicts by
insertion-ordered association lists, and raised exceptions by `Except`.
-/

namespace SpotRL

/-! ## utils/dict_tools.py -/

/-- `dict_from_lists(keys, values)`: dict built by zipping keys with values. -/
def dict_from_lists {K V : Type} (keys : List K) (values : List V) : List (K × V) :=
  keys.zip values

/-- `data.get(key)` on a Python dict modelled as an association list
(keys are unique in every dict this program builds). -/
def dict_get {K V : Type} [DecidableEq K] (data : List (K × V)) (key : K) : Option V :=
  (data.find? (fun kv => kv.1 = key)).map (·.2)

/-- `dict_to_list(data, keys)`: the values of `data` in the order of `keys`
(`None` where a key is absent, as `dict.get` returns). -/
def dict_to_list {K V : Type} [DecidableEq K] (data : List (K × V)) (keys : List K) :
    List (Option V) :=
  keys.map (dict_get data)

/-- `set_matching(data, regex, value)`: overwrite the value of every key the
regex matches, in place, keeping dict order. The regex is modelled as the
Boolean matching function `re.compile(...)` provides. -/
def set_matching {K V : Type} (data : List (K × V)) (regex : K → Bool) (value : V) :
    List (K × V) :=
  data.map (fun kv => if regex kv.1 then (kv.1, value) else kv)

/-- `reorder(inputs, ordering) = [inputs[i] for i in ordering]`. An index out
of range raises in Python; the embedding returns `default` there, and every
theorem below only exercises in-range indices. -/
def reorder {α : Type} [Inhabited α] (inputs : List α) (ordering : List ℕ) : List α :=
  ordering.map (fun i => inputs.getD i default)

/-- `find_ordering(input, output) = [input.index(key) for key in output]`.
Python `list.index` raises when the key is absent; `List.indexOf` then
returns the length, and every theorem below only uses present keys. -/
def find_ordering {α : Type} [DecidableEq α] (input : List α) (output : List α) : List ℕ :=
  output.map (fun key => input.indexOf key)

/-! ## hid/gamepad.py -/

/-- `AxisConfig` from `hid/gamepad.py`: per-axis shaping parameters. The
field comments in the source state that `min_*_dir` is the magnitude of the
output at the corresponding edge of the deadband and `max_*_dir` the
magnitude when the stick is at full travel. -/
structure AxisConfig where
  index : ℤ
  inverted : Bool
  deadband : ℚ
  min_forward_dir : ℚ
  max_forward_dir : ℚ
  min_reverse_dir : ℚ
  max_reverse_dir : ℚ
deriving DecidableEq

/-- `np.clip(v, lo, hi)`: numpy applies the lower bound first, then the
upper bound. -/
def np_clip (v lo hi : ℚ) : ℚ :=
  min (max v lo) hi

/-- `Gamepad._apply_curve(value, cfg)` translated line by line: optional
inversion, deadband to zero, then a linear remap with `slope` and `shift`
computed exactly as the source computes them, clipped per branch. -/
def apply_curve (value : ℚ) (cfg : AxisConfig) : ℚ :=
  let value := if cfg.inverted then -value else value
  if |value| < cfg.deadband then 0
  else if value > 0 then
    let slope := (cfg.max_forward_dir - cfg.min_forward_dir) / (1 - cfg.deadband)
    let shift := cfg.max_forward_dir - slope
    np_clip (slope * value + shift) cfg.min_forward_dir cfg.max_forward_dir
  else
    let slope := (cfg.max_reverse_dir - cfg.min_reverse_dir) / (1 - cfg.deadband)
    let shift := cfg.max_reverse_dir - slope
    np_clip (slope * value + shift) (-cfg.max_reverse_dir) (-cfg.min_reverse_dir)

/-- The spec's description of the reverse branch, written from the spec's
words for comparison with `apply_curve`: the symmetric mirror of the forward
remap, `-(min_reverse + (|x| - deadband)/(1 - deadband) * (max_reverse -
min_reverse))`, clamped to `[-max_reverse, -min_reverse]`. -/
def spec_reverse_curve (value : ℚ) (cfg : AxisConfig) : ℚ :=
  let value := if cfg.inverted then -value else value
  np_clip
    (-(cfg.min_reverse_dir +
        (|value| - cfg.deadband) / (1 - cfg.deadband) *
          (cfg.max_reverse_dir - cfg.min_reverse_dir)))
    (-cfg.max_reverse_dir) (-cfg.min_reverse_dir)

/-- The x-axis shaping parameters of the default PS4 `GamepadConfig`, with
the inversion flag cleared so that raw samples feed the curve directly. -/
def ps4_x_axis_no_invert : AxisConfig :=
  { index := 1, inverted := false, deadband := 1/5,
    min_forward_dir := 1/4, max_forward_dir := 1,
    min_reverse_dir := 1/4, max_reverse_dir := 1 }

/-! ## utils/event_divider.py

`EventDivider.__call__` loops `while count < self._factor`, waiting on the
event with a one-second timeout each iteration; a timeout returns `False`
at once, and after `factor` successful waits (each followed by clearing the
event) it returns `True`. The environment is abstracted as `waits : ℕ → Bool`
giving the outcome of the i-th `event.wait(1)` call; the result is paired
with the number of waits the loop performed. `factor` is a Python `int`,
so it is modelled as `ℤ`. -/

/-- The `while count < self._factor` loop of `EventDivider.__call__`,
starting from `count`; returns the result together with the number of
`event.wait` calls made. -/
def event_divider_loop (factor : ℤ) (waits : ℕ → Bool) (count : ℕ) : Bool × ℕ :=
  if h : (count : ℤ) < factor then
    if waits count then event_divider_loop factor waits (count + 1)
    else (false, count + 1)
  else (true, count)
termination_by (factor - count).toNat
decreasing_by
  omega

/-- `EventDivider.__call__`: run the loop with `count = 0`. -/
def event_divider_call (factor : ℤ) (waits : ℕ → Bool) : Bool × ℕ :=
  event_divider_loop factor waits 0

/-! ## orbit/orbit_constants.py and spot/constants.py -/

/-- `ordered_joint_names_orbit` from `orbit/orbit_constants.py`: the
policy-native joint ordering. -/
def ordered_joint_names_orbit : List String :=
  ["fl_hx", "fr_hx", "hl_hx", "hr_hx",
   "fl_hy", "fr_hy", "hl_hy", "hr_hy",
   "fl_kn", "fr_kn", "hl_kn", "hr_kn"]

/-- Modelled from the spec: `ordered_joint_names_bosdyn` lives in
`spot/constants.py`, which is not part of the provided sources; the spec
fixes that it is the actuator-native canonical ordering whose joint-name set
is identical to the policy-native ordering's set. The actuator ordering
groups the three joints of each leg together. -/
def ordered_joint_names_bosdyn : List String :=
  ["fl_hx", "fl_hy", "fl_kn",
   "fr_hx", "fr_hy", "fr_kn",
   "hl_hx", "hl_hy", "hl_kn",
   "hr_hx", "hr_hy", "hr_kn"]

/-- Modelled from the spec: the default per-joint stiffness gains
`DEFAULT_K_Q_P` of `spot/constants.py` (not in the provided sources); only
their presence in a command matters to the claims, so they are abstracted
as an unspecified 12-vector. -/
def DEFAULT_K_Q_P : List ℚ := List.replicate 12 1

/-- Modelled from the spec: the default per-joint damping gains
`DEFAULT_K_QD_P` of `spot/constants.py` (not in the provided sources). -/
def DEFAULT_K_QD_P : List ℚ := List.replicate 12 1

/-! ## orbit/observations.py

`spatialmath.UnitQuaternion(scalar, vector)` with `.inv()` (the conjugate,
for a unit quaternion) composed with `* v` (rotation of a 3-vector) is
modelled by Hamilton-product quaternion arithmetic over `ℚ`. -/

/-- A quaternion `(w, x, y, z)`, scalar first. -/
structure Quat where
  w : ℚ
  x : ℚ
  y : ℚ
  z : ℚ
deriving DecidableEq

/-- Hamilton product of two quaternions. -/
def quat_mul (p q : Quat) : Quat :=
  { w := p.w * q.w - p.x * q.x - p.y * q.y - p.z * q.z,
    x := p.w * q.x + p.x * q.w + p.y * q.z - p.z * q.y,
    y := p.w * q.y - p.x * q.z + p.y * q.w + p.z * q.x,
    z := p.w * q.z + p.x * q.y - p.y * q.x + p.z * q.w }

/-- Quaternion conjugate; equals the inverse for a unit quaternion, which is
what `UnitQuaternion.inv` computes. -/
def quat_conj (q : Quat) : Quat :=
  { w := q.w, x := -q.x, y := -q.y, z := -q.z }

/-- Rotate the 3-vector `v` by the unit quaternion `q`
(`q ⊗ (0, v) ⊗ q⋆`), as `UnitQuaternion.__mul__` does. -/
def quat_rotate (q : Quat) (v : List ℚ) : List ℚ :=
  let p := quat_mul (quat_mul q { w := 0, x := v.getD 0 0, y := v.getD 1 0, z := v.getD 2 0 })
    (quat_conj q)
  [p.x, p.y, p.z]

/-- The fields of a `RobotStateStreamResponse` snapshot the program reads:
world(odom)-frame base velocities, the odom-to-body rotation, per-joint
position/velocity/load in actuator order, and the acquisition timestamp in
seconds. -/
structure Snapshot where
  velocity_linear : List ℚ
  velocity_angular : List ℚ
  odom_tform_body_rotation : Quat
  joint_position : List ℚ
  joint_velocity : List ℚ
  joint_load : List ℚ
  acquisition_timestamp : ℚ
deriving DecidableEq

/-- `get_base_linear_velocity`: rotate the odom-frame linear velocity into
the body frame with the inverse of the snapshot's orientation quaternion. -/
def get_base_linear_velocity (state : Snapshot) : List ℚ :=
  quat_rotate (quat_conj state.odom_tform_body_rotation) state.velocity_linear

/-- `get_base_angular_velocity`: same rotation applied to the angular
velocity. -/
def get_base_angular_velocity (state : Snapshot) : List ℚ :=
  quat_rotate (quat_conj state.odom_tform_body_rotation) state.velocity_angular

/-- `get_projected_gravity`: rotate the odom "down" vector `(0, 0, -1)` by
the inverse orientation. -/
def get_projected_gravity (state : Snapshot) : List ℚ :=
  quat_rotate (quat_conj state.odom_tform_body_rotation) [0, 0, -1]

/-! ## orbit/orbit_configuration.py -/

/-- `OrbitConfig` from `orbit/orbit_configuration.py`. The `kp`/`kd`/
`default_joints` fields hold the per-joint dicts `load_configuration`
builds; the value type is a parameter because the dicts start with `None`
placeholders (`V = Option ℚ`) while the running generator assumes every
value is a float (`V = ℚ`). -/
structure OrbitConfig (V : Type) where
  kp : List (String × V)
  kd : List (String × V)
  default_joints : List (String × V)
  standing_height : ℚ
  action_scale : ℚ
deriving DecidableEq

/-- `dict_to_list` followed by the source's implicit assumption that every
requested key is present (Python would raise on the `None` of a missed
lookup at the first arithmetic use): an absent key falls back to `0`, a
case no theorem below exercises. -/
def dict_to_list_vals (data : List (String × ℚ)) (keys : List String) : List ℚ :=
  (dict_to_list data keys).map (fun o => o.getD 0)

/-- One actuator group of the training configuration:
`actuators[group]["joint_names_expr"]` (a list of regexes, of which the
code uses element 0), `["stiffness"]` and `["damping"]`. -/
structure ActuatorGroup where
  joint_names_expr : List (String → Bool)
  stiffness : ℚ
  damping : ℚ

/-- The training-configuration JSON fields `load_configuration` reads.
Each `Option` is `none` when the corresponding required key is missing
from the file (Python then raises `KeyError`). -/
structure RawEnvConfig where
  actuators : Option (List (String × ActuatorGroup))
  init_state_joint_pos : Option (List ((String → Bool) × ℚ))
  actions_joint_pos_scale : Option ℚ
  init_state_pos : Option (List ℚ)

/-- The `for group in actuators.keys()` loop of `load_configuration`:
apply `set_matching` for stiffness and damping with each group's first
regex; `joint_names_expr[0]` on an empty list raises `IndexError`. -/
def apply_actuator_groups (groups : List (String × ActuatorGroup))
    (kp kd : List (String × Option ℚ)) :
    Except String (List (String × Option ℚ) × List (String × Option ℚ)) :=
  match groups with
  | [] => .ok (kp, kd)
  | (_, g) :: rest =>
    match g.joint_names_expr.head? with
    | none => .error "IndexError: joint_names_expr"
    | some regex =>
      apply_actuator_groups rest
        (set_matching kp regex (some g.stiffness))
        (set_matching kd regex (some g.damping))

/-- The `for expression in default_joint_expressions` loop: apply
`set_matching` on the offsets dict for each joint-position expression. -/
def apply_joint_pos_exprs (exprs : List ((String → Bool) × ℚ))
    (offsets : List (String × Option ℚ)) : List (String × Option ℚ) :=
  match exprs with
  | [] => offsets
  | (regex, v) :: rest => apply_joint_pos_exprs rest (set_matching offsets regex (some v))

/-- `load_configuration`: start from dicts keyed by the canonical orbit
joint names with `None` placeholder values, overwrite the entries each
regex matches, and read the scalar fields; a missing required key (or an
out-of-range index) is an exception, modelled as `Except.error`. -/
def load_configuration (c : RawEnvConfig) : Except String (OrbitConfig (Option ℚ)) :=
  let joint_kp := dict_from_lists ordered_joint_names_orbit
    (List.replicate 12 (none : Option ℚ))
  let joint_kd := dict_from_lists ordered_joint_names_orbit
    (List.replicate 12 (none : Option ℚ))
  let joint_offsets := dict_from_lists ordered_joint_names_orbit
    (List.replicate 12 (none : Option ℚ))
  match c.actuators with
  | none => .error "KeyError: actuators"
  | some actuators =>
    match apply_actuator_groups actuators joint_kp joint_kd with
    | .error e => .error e
    | .ok (joint_kp, joint_kd) =>
      match c.init_state_joint_pos with
      | none => .error "KeyError: joint_pos"
      | some default_joint_data =>
        let joint_offsets := apply_joint_pos_exprs default_joint_data joint_offsets
        match c.actions_joint_pos_scale with
        | none => .error "KeyError: scale"
        | some action_scale =>
          match c.init_state_pos with
          | none => .error "KeyError: pos"
          | some pos =>
            match pos.get? 2 with
            | none => .error "IndexError: pos"
            | some standing_height =>
              .ok { kp := joint_kp, kd := joint_kd, default_joints := joint_offsets,
                    standing_height := standing_height, action_scale := action_scale }

/-! ## orbit/observations.py — joint observations -/

/-- `get_joint_positions`: reorder actuator-order positions to policy order
and subtract the policy-native neutral offsets (`map(sub, ...)` truncates
to the shorter list, as `zipWith` does). -/
def get_joint_positions (state : Snapshot) (config : OrbitConfig ℚ) : List ℚ :=
  let spot_to_orbit := find_ordering ordered_joint_names_bosdyn ordered_joint_names_orbit
  let pos := reorder state.joint_position spot_to_orbit
  let default_joints := dict_to_list_vals config.default_joints ordered_joint_names_orbit
  List.zipWith (· - ·) pos default_joints

/-- `get_joint_velocity`: reorder actuator-order joint velocities to policy
order. -/
def get_joint_velocity (state : Snapshot) : List ℚ :=
  let spot_to_orbit := find_ordering ordered_joint_names_bosdyn ordered_joint_names_orbit
  reorder state.joint_velocity spot_to_orbit

/-! ## orbit/onnx_command_generator.py -/

/-- The parts of the outgoing `JointControlStreamRequest` proto the
generator fills in: optional one-time gain vectors, per-joint
position/velocity/load targets, the command deadline (seconds), the
extrapolation tolerance (nanoseconds) and the user command key. -/
structure JointCommand where
  gains : Option (List ℚ × List ℚ)
  position : List ℚ
  velocity : List ℚ
  load : List ℚ
  end_time : ℚ
  extrapolation_nanos : ℤ
  user_command_key : ℕ
deriving DecidableEq

/-- `OnnxControllerContext`: the cross-thread shared context — latest
snapshot (assumed present whenever the generator runs; Python would raise
on `None`), the velocity reference and the shared command counter. -/
structure OnnxControllerContext where
  latest_state : Snapshot
  velocity_cmd : List ℚ
  count : ℕ
deriving DecidableEq

/-- The mutable fields of an `OnnxCommandGenerator`: `_last_action`,
`_count`, and the cached initial joint positions and loads. -/
structure GenState where
  last_action : List ℚ
  count : ℕ
  init_pos : Option (List ℚ)
  init_load : Option (List ℚ)
deriving DecidableEq

/-- The state `OnnxCommandGenerator.__init__` establishes:
`_last_action = [0]*12`, `_count = 1`, no cached initial pose. -/
def initial_gen_state : GenState :=
  { last_action := List.replicate 12 0, count := 1, init_pos := none, init_load := none }

/-- `OnnxCommandGenerator.collect_inputs`: concatenate the six observation
blocks in the source's order. -/
def collect_inputs (state : Snapshot) (config : OrbitConfig ℚ)
    (velocity_cmd last_action : List ℚ) : List ℚ :=
  get_base_linear_velocity state ++
  get_base_angular_velocity state ++
  get_projected_gravity state ++
  velocity_cmd ++
  get_joint_positions state config ++
  get_joint_velocity state ++
  last_action

/-- The startup ramp factor `test_scale = min(0.1 * self._count, 1)` of
`OnnxCommandGenerator.__call__`. -/
def ramp_factor (count : ℕ) : ℚ :=
  min (1/10 * (count : ℚ)) 1

/-- `OnnxCommandGenerator.create_proto`: gains attached only while
`self._count == 1`, position targets from `pos_command`, zero
velocity/load targets, deadline = snapshot acquisition time + 0.1 s,
5 ms extrapolation, user command key = `self._count`. -/
def create_proto (config : OrbitConfig ℚ) (latest_state : Snapshot) (count : ℕ)
    (pos_command : List ℚ) : JointCommand :=
  let k_q_p := dict_to_list_vals config.kp ordered_joint_names_bosdyn
  let k_qd_p := dict_to_list_vals config.kd ordered_joint_names_bosdyn
  { gains := if count = 1 then some (k_q_p, k_qd_p) else none,
    position := pos_command,
    velocity := List.replicate pos_command.length 0,
    load := List.replicate pos_command.length 0,
    end_time := latest_state.acquisition_timestamp + 1/10,
    extrapolation_nanos := 5 * 1000000,
    user_command_key := count }

/-- `OnnxCommandGenerator.__call__` as a pure step: cache the initial pose
on the first call, build the observation, run the (opaque) policy, scale by
`action_scale` and the startup ramp, add the neutral offsets back, reorder
to actuator order, emit the proto, then advance `_last_action`, `_count`
and the shared context count. -/
def generator_call (config : OrbitConfig ℚ) (policy : List ℚ → List ℚ)
    (ctx : OnnxControllerContext) (s : GenState) :
    JointCommand × GenState × OnnxControllerContext :=
  let s := if s.init_pos = none then
      { s with init_pos := some ctx.latest_state.joint_position,
               init_load := some ctx.latest_state.joint_load }
    else s
  let input_list := collect_inputs ctx.latest_state config ctx.velocity_cmd s.last_action
  let output := policy input_list
  let test_scale := ramp_factor s.count
  let scaled_output := List.zipWith (· * ·) (List.replicate 12 config.action_scale) output
  let test_scaled := List.zipWith (· * ·) (List.replicate 12 test_scale) scaled_output
  let default_joints := dict_to_list_vals config.default_joints ordered_joint_names_orbit
  let shifted_output := List.zipWith (· + ·) test_scaled default_joints
  let orbit_to_spot := find_ordering ordered_joint_names_orbit ordered_joint_names_bosdyn
  let reordered_output := reorder shifted_output orbit_to_spot
  let proto := create_proto config ctx.latest_state s.count reordered_output
  (proto,
   { s with last_action := output, count := s.count + 1 },
   { ctx with count := ctx.count + 1 })

/-- `OnnxCommandGenerator.create_proto_hold`: position targets from the
cached initial positions (`Python` raises if none were cached; the
fallback `0` is never exercised below), loads from the cached initial
loads, default gains attached while `self._count == 1`, same deadline,
extrapolation and key fields as `create_proto`. The method reads but never
mutates the generator state — in particular `_count` stays unchanged. -/
def create_proto_hold (s : GenState) (latest_state : Snapshot) : JointCommand :=
  let k_q_p := DEFAULT_K_Q_P.take 12
  let k_qd_p := DEFAULT_K_QD_P.take 12
  let init_pos := s.init_pos.getD (List.replicate 12 0)
  let init_load := s.init_load.getD (List.replicate 12 0)
  let pos_cmd := (List.range 12).map (fun i => init_pos.getD i 0)
  let load_cmd := (List.range 12).map (fun i => init_load.getD i 0)
  { gains := if s.count = 1 then some (k_q_p, k_qd_p) else none,
    position := pos_cmd,
    velocity := List.replicate 12 0,
    load := load_cmd,
    end_time := latest_state.acquisition_timestamp + 1/10,
    extrapolation_nanos := 5 * 1000000,
    user_command_key := s.count }

/-- The command-stream loop driving the policy path: `n` calls of
`generator_call`, with the external inputs of call `i` (snapshot and
velocity reference, written by the state and gamepad threads at arbitrary
times) given by `ext i` and the policy output of call `i` by `policy i`.
Returns the generator state and the shared context count after `n` calls. -/
def generator_run (config : OrbitConfig ℚ) (policy : ℕ → List ℚ → List ℚ)
    (ext : ℕ → Snapshot × List ℚ) : ℕ → GenState × ℕ
  | 0 => (initial_gen_state, 0)
  | n + 1 =>
    let (s, c) := generator_run config policy ext n
    let ctx : OnnxControllerContext :=
      { latest_state := (ext n).1, velocity_cmd := (ext n).2, count := c }
    let (_, s2, ctx2) := generator_call config (policy n) ctx s
    (s2, ctx2.count)

/-- The proto produced by call `n + 1` of the stream (zero-indexed `n`). -/
def generator_proto (config : OrbitConfig ℚ) (policy : ℕ → List ℚ → List ℚ)
    (ext : ℕ → Snapshot × List ℚ) (n : ℕ) : JointCommand :=
  let (s, c) := generator_run config policy ext n
  let ctx : OnnxControllerContext :=
    { latest_state := (ext n).1, velocity_cmd := (ext n).2, count := c }
  (generator_call config (policy n) ctx s).1

/-- The hold-mode command stream: each tick yields
`create_proto_hold(self)`. Because the method never mutates the generator
state, the state fed to the `n`-th tick is the same `s` for every `n`, so
the `n`-th streamed hold command is `create_proto_hold s` evaluated on the
snapshot current at that tick. -/
def hold_stream (s : GenState) (snap : ℕ → Snapshot) (n : ℕ) : JointCommand :=
  create_proto_hold s (snap n)

/-! ## Concrete example data used by counterexamples and witnesses -/

/-- A training configuration whose only actuator group has a regex matching
no joint name at all, while every required key is present. -/
def c3_unmatched_config : RawEnvConfig :=
  { actuators := some [("legs",
      { joint_names_expr := [fun _ => false], stiffness := 5, damping := 1 })],
    init_state_joint_pos := some [(fun _ => true, 0)],
    actions_joint_pos_scale := some (1/4),
    init_state_pos := some [0, 0, 1/2] }

/-- The `OrbitConfig` `load_configuration` produces from
`c3_unmatched_config`: every gain entry is still the `None` placeholder. -/
def c3_loaded_config : OrbitConfig (Option ℚ) :=
  { kp := dict_from_lists ordered_joint_names_orbit (List.replicate 12 none),
    kd := dict_from_lists ordered_joint_names_orbit (List.replicate 12 none),
    default_joints := dict_from_lists ordered_joint_names_orbit
      (List.replicate 12 (some 0)),
    standing_height := 1/2, action_scale := 1/4 }

/-- A training configuration missing the `actuators` key. -/
def c3_missing_key_config : RawEnvConfig :=
  { actuators := none,
    init_state_joint_pos := some [(fun _ => true, 0)],
    actions_joint_pos_scale := some (1/4),
    init_state_pos := some [0, 0, 1/2] }

/-- The scenario snapshot of the observation claim: zero velocities,
identity orientation and every joint position equal to its policy-native
neutral offset `d`. -/
def c7_snapshot (d : String → ℚ) : Snapshot :=
  { velocity_linear := [0, 0, 0], velocity_angular := [0, 0, 0],
    odom_tform_body_rotation := { w := 1, x := 0, y := 0, z := 0 },
    joint_position := ordered_joint_names_bosdyn.map d,
    joint_velocity := List.replicate 12 0,
    joint_load := List.replicate 12 0,
    acquisition_timestamp := 0 }

/-- A fully-matched `OrbitConfig` whose policy-native neutral offsets are
given by `d`. -/
def c7_config (d : String → ℚ) (kp kd : List (String × ℚ)) (sh asc : ℚ) : OrbitConfig ℚ :=
  { kp := kp, kd := kd,
    default_joints := ordered_joint_names_orbit.map (fun n => (n, d n)),
    standing_height := sh, action_scale := asc }

/-- A concrete snapshot for witness instantiations. -/
def demo_snapshot : Snapshot :=
  { velocity_linear := [0, 0, 0], velocity_angular := [0, 0, 0],
    odom_tform_body_rotation := { w := 1, x := 0, y := 0, z := 0 },
    joint_position := List.replicate 12 0,
    joint_velocity := List.replicate 12 0,
    joint_load := List.replicate 12 0,
    acquisition_timestamp := 0 }

/-- A concrete fully-populated `OrbitConfig` for witness instantiations. -/
def demo_config : OrbitConfig ℚ :=
  { kp := ordered_joint_names_orbit.map (fun n => (n, 60)),
    kd := ordered_joint_names_orbit.map (fun n => (n, 2)),
    default_joints := ordered_joint_names_orbit.map (fun n => (n, 0)),
    standing_height := 1/2, action_scale := 1/4 }

/-- A concrete policy (identically zero output) for witness
instantiations. -/
def demo_policy : ℕ → List ℚ → List ℚ := fun _ _ => List.replicate 12 0

/-- Concrete external inputs (constant snapshot and zero velocity
reference) for witness instantiations. -/
def demo_ext : ℕ → Snapshot × List ℚ := fun _ => (demo_snapshot, [0, 0, 0])

/-! ## Helper lemmas -/

lemma dict_get_cons {K V : Type} [DecidableEq K] (p : K × V) (t : List (K × V)) (n : K) :
    dict_get (p :: t) n = if p.1 = n then some p.2 else dict_get t n := by
  simp only [dict_get, List.find?_cons]
  split
  · next h => simp at h; simp [h]
  · next h => simp at h; simp [h]

lemma dict_get_set_matching_unmatched {K V : Type} [DecidableEq K]
    (d : List (K × V)) (r : K → Bool) (v : V) (n : K) (h : r n = false) :
    dict_get (set_matching d r v) n = dict_get d n := by
  induction d with
  | nil => rfl
  | cons kv rest ih =>
    simp only [set_matching, List.map_cons]
    rw [dict_get_cons, dict_get_cons]
    have hkey : (if r kv.1 = true then (kv.1, v) else kv).1 = kv.1 := by
      split <;> rfl
    rw [hkey]
    by_cases hk : kv.1 = n
    · have hr : r kv.1 = false := by rw [hk]; exact h
      simp [hk, hr, h]
    · simp only [hk, if_false]
      exact ih

lemma apply_groups_unmatched (n : String) :
    ∀ (gs : List (String × ActuatorGroup)) (kp kd : List (String × Option ℚ))
      (res : List (String × Option ℚ) × List (String × Option ℚ)),
    (∀ g ∈ gs, ∀ r ∈ g.2.joint_names_expr.head?, r n = false) →
    apply_actuator_groups gs kp kd = .ok res →
    dict_get res.1 n = dict_get kp n := by
  intro gs
  induction gs with
  | nil =>
    intro kp kd res _ hok
    simp only [apply_actuator_groups] at hok
    cases hok
    rfl
  | cons g rest ih =>
    intro kp kd res hall hok
    simp only [apply_actuator_groups] at hok
    cases hh : g.2.joint_names_expr.head? with
    | none => rw [hh] at hok; cases hok
    | some r =>
      rw [hh] at hok
      have hr : r n = false := hall g (List.mem_cons_self g rest) r (by rw [hh]; rfl)
      have := ih (set_matching kp r (some g.2.stiffness))
        (set_matching kd r (some g.2.damping)) res
        (fun g' hg' => hall g' (List.mem_cons_of_mem g hg')) hok
      rw [this, dict_get_set_matching_unmatched _ _ _ _ hr]

lemma dict_get_init_placeholder (n : String) (hn : n ∈ ordered_joint_names_orbit) :
    dict_get (dict_from_lists ordered_joint_names_orbit
      (List.replicate 12 (none : Option ℚ))) n = some none := by
  fin_cases hn <;> rfl

lemma edl_spec (factor : ℤ) (waits : ℕ → Bool) :
    ∀ (fuel : ℕ) (count : ℕ), (factor - count).toNat ≤ fuel →
    (((event_divider_loop factor waits count).1 = true) ↔
      ∀ i, count ≤ i → (i : ℤ) < factor → waits i = true) ∧
    ((event_divider_loop factor waits count).1 = true →
      ((event_divider_loop factor waits count).2 : ℤ) = max factor count) := by
  intro fuel
  induction fuel with
  | zero =>
    intro count h
    have hnot : ¬ ((count : ℤ) < factor) := by omega
    rw [event_divider_loop, dif_neg hnot]
    constructor
    · constructor
      · intro _ i hci hif
        exact absurd hif (by omega)
      · intro _
        trivial
    · intro _
      omega
  | succ fuel ih =>
    intro count h
    rw [event_divider_loop]
    by_cases hlt : (count : ℤ) < factor
    · rw [dif_pos hlt]
      by_cases hw : waits count = true
      · simp only [hw, if_true]
        obtain ⟨ih1, ih2⟩ := ih (count + 1) (by omega)
        constructor
        · rw [ih1]
          constructor
          · intro hall i hci hif
            rcases Nat.eq_or_lt_of_le hci with rfl | hlt2
            · exact hw
            · exact hall i hlt2 hif
          · intro hall i hci hif
            exact hall i (by omega) hif
        · intro htrue
          rw [ih2 htrue]
          omega
      · have hw' : waits count = false := by simpa using hw
        simp only [hw', Bool.false_eq_true, if_false]
        constructor
        · simp only [Bool.false_eq_true, false_iff]
          intro hall
          exact hw (hall count le_rfl hlt)
        · intro hfalse
          simp at hfalse
    · rw [dif_neg hlt]
      constructor
      · constructor
        · intro _ i hci hif
          exact absurd hif (by omega)
        · intro _
          trivial
      · intro _
        omega

lemma edl_fail (factor : ℤ) (waits : ℕ → Bool) :
    ∀ (fuel : ℕ) (count j : ℕ), (factor - count).toNat ≤ fuel →
    count ≤ j → (j : ℤ) < factor → waits j = false →
    (∀ i, count ≤ i → i < j → waits i = true) →
    event_divider_loop factor waits count = (false, j + 1) := by
  intro fuel
  induction fuel with
  | zero =>
    intro count j h hcj hjf _ _
    exact absurd hjf (by omega)
  | succ fuel ih =>
    intro count j h hcj hjf hwj hall
    have hlt : (count : ℤ) < factor := by omega
    rw [event_divider_loop, dif_pos hlt]
    rcases Nat.eq_or_lt_of_le hcj with rfl | hcj'
    · simp [hwj]
    · have hwc : waits count = true := hall count le_rfl hcj'
      simp only [hwc, if_true]
      exact ih (count + 1) j (by omega) (by omega) hjf hwj
        (fun i hi1 hi2 => hall i (by omega) hi2)

lemma generator_call_count (config : OrbitConfig ℚ) (policy : List ℚ → List ℚ)
    (ctx : OnnxControllerContext) (s : GenState) :
    (generator_call config policy ctx s).2.1.count = s.count + 1 ∧
    (generator_call config policy ctx s).2.2.count = ctx.count + 1 ∧
    (generator_call config policy ctx s).1.user_command_key = s.count ∧
    (generator_call config policy ctx s).1.gains =
      (if s.count = 1
       then some (dict_to_list_vals config.kp ordered_joint_names_bosdyn,
                  dict_to_list_vals config.kd ordered_joint_names_bosdyn)
       else none) := by
  unfold generator_call create_proto
  by_cases h : s.init_pos = none <;> simp [h]

lemma generator_run_count (config : OrbitConfig ℚ) (policy : ℕ → List ℚ → List ℚ)
    (ext : ℕ → Snapshot × List ℚ) :
    ∀ n, (generator_run config policy ext n).1.count = n + 1 ∧
      (generator_run config policy ext n).2 = n := by
  intro n
  induction n with
  | zero => exact ⟨rfl, rfl⟩
  | succ n ih =>
    obtain ⟨h1, h2⟩ := ih
    rw [generator_run]
    rcases hp : generator_run config policy ext n with ⟨s, c⟩
    rw [hp] at h1 h2
    simp only at h1 h2
    rcases hq : generator_call config (policy n)
      { latest_state := (ext n).1, velocity_cmd := (ext n).2, count := c } s
      with ⟨proto, s2, ctx2⟩
    obtain ⟨g1, g2, -, -⟩ := generator_call_count config (policy n)
      { latest_state := (ext n).1, velocity_cmd := (ext n).2, count := c } s
    rw [hq] at g1 g2
    simp only at g1 g2
    simp only [hq]
    exact ⟨by omega, by omega⟩

lemma generator_proto_spec (config : OrbitConfig ℚ) (policy : ℕ → List ℚ → List ℚ)
    (ext : ℕ → Snapshot × List ℚ) (n : ℕ) :
    (generator_proto config policy ext n).user_command_key = n + 1 ∧
    (generator_proto config policy ext n).gains =
      (if n = 0
       then some (dict_to_list_vals config.kp ordered_joint_names_bosdyn,
                  dict_to_list_vals config.kd ordered_joint_names_bosdyn)
       else none) := by
  rw [generator_proto]
  rcases hp : generator_run config policy ext n with ⟨s, c⟩
  obtain ⟨h1, h2⟩ := generator_run_count config policy ext n
  rw [hp] at h1 h2
  simp only at h1 h2
  obtain ⟨-, -, g3, g4⟩ := generator_call_count config (policy n)
    { latest_state := (ext n).1, velocity_cmd := (ext n).2, count := c } s
  simp only
  rw [g3, g4, h1]
  constructor
  · rfl
  · by_cases hn : n = 0 <;> simp [hn]

/-! ## Claim theorems -/

/-- C1: the spec claims the reverse branch of `_apply_curve` is the
symmetric mirror of the forward remap, `-(min_reverse + (|x| -
deadband)/(1 - deadband) * (max_reverse - min_reverse))` clamped to
`[-max_reverse, -min_reverse]`, and the source's own `AxisConfig` field
comments promise output magnitude `max_reverse_dir` at full reverse travel.
The code instead reuses the forward-branch shift formula
(`shift = max_reverse - slope`): at full reverse (`x = -1`) with the
default PS4 parameters (deadband 0.2, min 0.25, max 1.0, no inversion) it
returns `-7/8` where the documented mirror gives `-1`. -/
theorem C1_reverse_curve_code_bug :
    apply_curve (-1) ps4_x_axis_no_invert = -7/8 ∧
    spec_reverse_curve (-1) ps4_x_axis_no_invert = -1 ∧
    apply_curve (-1) ps4_x_axis_no_invert ≠ spec_reverse_curve (-1) ps4_x_axis_no_invert := by
  refine ⟨by norm_num [apply_curve, ps4_x_axis_no_invert, np_clip],
          by norm_num [spec_reverse_curve, ps4_x_axis_no_invert, np_clip],
          by norm_num [apply_curve, spec_reverse_curve, ps4_x_axis_no_invert, np_clip]⟩

/-- C2 (counterexample): the round-trip claim fails for equal-multiset
lists with duplicates: with `A = B = [0, 0]` and `L = [1, 2]`,
`find_ordering` maps every occurrence to the first index, so the double
reorder yields `[1, 1]` ≠ `[1, 2]`. -/
theorem C2_duplicate_counterexample :
    (([0, 0] : List ℕ) : Multiset ℕ) = (([0, 0] : List ℕ) : Multiset ℕ) ∧
    ([1, 2] : List ℕ).length = ([0, 0] : List ℕ).length ∧
    reorder (reorder ([1, 2] : List ℕ) (find_ordering [0, 0] [0, 0]))
      (find_ordering [0, 0] [0, 0]) ≠ [1, 2] := by
  refine ⟨rfl, rfl, by decide⟩

/-- C2 (amended): for lists `A`, `B` that are equal as multisets and
duplicate-free, and any `L` of the same length, reordering `L` by
`find_ordering A B` and then by `find_ordering B A` restores `L`. -/
theorem C2_reorder_roundtrip_nodup {α : Type} [DecidableEq α] [Inhabited α]
    (A B L : List α) (hnd : A.Nodup) (hAB : A.Perm B) (hlen : L.length = A.length) :
    reorder (reorder L (find_ordering A B)) (find_ordering B A) = L := by
  have hBlen : B.length = A.length := hAB.length_eq.symm
  have hBnd : B.Nodup := hAB.nodup_iff.mp hnd
  apply List.ext_getElem
  · simp [reorder, find_ordering, hlen]
  · intro n h1 h2
    have hA : n < A.length := by omega
    simp only [reorder, find_ordering, List.getElem_map]
    have hmemB : A[n] ∈ B := hAB.mem_iff.mp (A.getElem_mem hA)
    have hidxB : B.indexOf A[n] < B.length := List.indexOf_lt_length.mpr hmemB
    have hb : B.indexOf A[n] <
        (List.map (fun i => L.getD i default) (List.map (fun key => A.indexOf key) B)).length := by
      simp [hidxB]
    rw [List.getD_eq_getElem _ _ hb]
    simp only [List.getElem_map]
    rw [List.getElem_indexOf hidxB]
    rw [List.indexOf_getElem hnd n hA]
    exact List.getD_eq_getElem _ _ h2

/-- C2 (witness): the amended round-trip at `A = [10, 20, 30]`,
`B = [30, 10, 20]`, `L = [1, 2, 3]`. -/
theorem C2_reorder_roundtrip_witness :
    ([10, 20, 30] : List ℕ).Nodup ∧
    ([10, 20, 30] : List ℕ).Perm [30, 10, 20] ∧
    ([1, 2, 3] : List ℕ).length = ([10, 20, 30] : List ℕ).length ∧
    reorder (reorder ([1, 2, 3] : List ℕ) (find_ordering [10, 20, 30] [30, 10, 20]))
      (find_ordering [30, 10, 20] [10, 20, 30]) = [1, 2, 3] :=
  ⟨by decide, by decide, by decide,
   C2_reorder_roundtrip_nodup [10, 20, 30] [30, 10, 20] [1, 2, 3]
     (by decide) (by decide) (by decide)⟩

/-- C5: for `factor ≥ 1`, `EventDivider.__call__` returns `True` iff the
first `factor` waits all succeed; on success it performed exactly `factor`
waits, and a first failing wait at index `j` makes it return `False`
immediately after `j + 1` waits (no partial tick). -/
theorem C5_event_divider_exact_factor (factor : ℤ) (waits : ℕ → Bool) (hf : 1 ≤ factor) :
    ((event_divider_call factor waits).1 = true ↔
      ∀ i : ℕ, (i : ℤ) < factor → waits i = true) ∧
    ((event_divider_call factor waits).1 = true →
      ((event_divider_call factor waits).2 : ℤ) = factor) ∧
    (∀ j : ℕ, (j : ℤ) < factor → waits j = false →
      (∀ i, i < j → waits i = true) →
      event_divider_call factor waits = (false, j + 1)) := by
  obtain ⟨h1, h2⟩ := edl_spec factor waits (factor - ((0 : ℕ) : ℤ)).toNat 0 le_rfl
  refine ⟨?_, ?_, ?_⟩
  · rw [event_divider_call, h1]
    exact ⟨fun h i hi => h i (Nat.zero_le i) hi, fun h i _ hi => h i hi⟩
  · intro ht
    rw [event_divider_call] at ht ⊢
    rw [h2 ht]
    omega
  · intro j hj hwj hall
    rw [event_divider_call]
    exact edl_fail factor waits (factor - ((0 : ℕ) : ℤ)).toNat 0 j le_rfl
      (Nat.zero_le j) hj hwj (fun i _ hij => hall i hij)

/-- C5 (witness): with `factor = 3`, three good waits yield success and a
failure at the second wait yields `(False, 2)`. -/
theorem C5_event_divider_witness :
    (1 : ℤ) ≤ 3 ∧
    (event_divider_call 3 (fun _ => true)).1 = true ∧
    event_divider_call 3 (fun i => decide (i ≠ 1)) = (false, 2) :=
  ⟨by norm_num,
   (C5_event_divider_exact_factor 3 (fun _ => true) (by norm_num)).1.mpr
     (fun i _ => rfl),
   (C5_event_divider_exact_factor 3 (fun i => decide (i ≠ 1)) (by norm_num)).2.2 1
     (by norm_num) (by decide)
     (fun i hij => by
       have hi : i = 0 := by omega
       subst hi
       decide)⟩

/-- C6: across consecutive `OnnxCommandGenerator.__call__` invocations —
for every configuration, policy and sequence of externally supplied
snapshots/velocity references (i.e. regardless of rate-divider timing) —
the shared context count after `n` calls is `n`, the generator counter is
`n + 1`, the `n`-th command's `user_command_key` is `n + 1`, and the keys
are strictly increasing (each call increments both counters by exactly
one; no value reused, none decreases). -/
theorem C6_monotonic_sequencing (config : OrbitConfig ℚ) (policy : ℕ → List ℚ → List ℚ)
    (ext : ℕ → Snapshot × List ℚ) :
    (∀ n, (generator_run config policy ext n).2 = n ∧
      (generator_run config policy ext n).1.count = n + 1) ∧
    (∀ n, (generator_proto config policy ext n).user_command_key = n + 1) ∧
    (∀ m n, m < n →
      (generator_proto config policy ext m).user_command_key <
        (generator_proto config policy ext n).user_command_key) := by
  refine ⟨fun n => ⟨(generator_run_count config policy ext n).2,
                    (generator_run_count config policy ext n).1⟩,
          fun n => (generator_proto_spec config policy ext n).1,
          fun m n hmn => ?_⟩
  rw [(generator_proto_spec config policy ext m).1,
      (generator_proto_spec config policy ext n).1]
  omega

/-- C6 (witness): concrete instantiation at calls 1 < 3. -/
theorem C6_monotonic_witness :
    1 < 3 ∧
    (generator_proto demo_config demo_policy demo_ext 1).user_command_key <
      (generator_proto demo_config demo_policy demo_ext 3).user_command_key ∧
    (generator_run demo_config demo_policy demo_ext 3).2 = 3 :=
  ⟨by decide,
   (C6_monotonic_sequencing demo_config demo_policy demo_ext).2.2 1 3 (by decide),
   ((C6_monotonic_sequencing demo_config demo_policy demo_ext).1 3).1⟩

/-- C9: the startup ramp factor of `OnnxCommandGenerator.__call__` is
`min(0.1 * count, 1)` with `count` starting at 1; it equals `count/10` for
`count` in `[1, 9]` and exactly `1` for `count ≥ 10`. -/
theorem C9_ramp_factor (c : ℕ) :
    ramp_factor c = min (1/10 * (c : ℚ)) 1 ∧
    (1 ≤ c → c ≤ 9 → ramp_factor c = (c : ℚ) / 10) ∧
    (10 ≤ c → ramp_factor c = 1) := by
  refine ⟨rfl, fun h1 h9 => ?_, fun h10 => ?_⟩
  · have hc : (c : ℚ) ≤ 9 := by exact_mod_cast h9
    rw [ramp_factor, min_eq_left (by linarith)]
    ring
  · have hc : (10 : ℚ) ≤ (c : ℚ) := by exact_mod_cast h10
    rw [ramp_factor, min_eq_right (by linarith)]

/-- C9 (witness): ramp factor `7/10` at cycle 7 and exactly `1` at
cycle 10. -/
theorem C9_ramp_factor_witness :
    1 ≤ 7 ∧ 7 ≤ 9 ∧ ramp_factor 7 = 7/10 ∧ 10 ≤ 10 ∧ ramp_factor 10 = 1 :=
  ⟨by decide, by decide,
   by rw [(C9_ramp_factor 7).2.1 (by decide) (by decide)]; norm_num,
   by decide, (C9_ramp_factor 10).2.2 (by decide)⟩

/-- C10: for `factor ≤ 0` the `while` loop body never runs, so
`EventDivider.__call__` returns `True` at once having performed zero
waits (and zero clears) — an unconditional pass-through for every possible
wait outcome sequence. -/
theorem C10_nonpositive_factor_passthrough (factor : ℤ) (waits : ℕ → Bool)
    (hf : factor ≤ 0) : event_divider_call factor waits = (true, 0) := by
  have h : ¬ (((0 : ℕ) : ℤ) < factor) := by omega
  rw [event_divider_call, event_divider_loop, dif_neg h]

/-- C10 (witness): `factor = -2` with waits that would all fail. -/
theorem C10_passthrough_witness :
    (-2 : ℤ) ≤ 0 ∧ event_divider_call (-2) (fun _ => false) = (true, 0) :=
  ⟨by norm_num, C10_nonpositive_factor_passthrough (-2) (fun _ => false) (by norm_num)⟩

/-- C8: for `0 ≤ deadband < 1` and `0 ≤ min_forward ≤ max_forward`, a
sample whose (optionally inverted) value `y` is positive and at least the
deadband is mapped by `_apply_curve` to the linear remap of
`[deadband, 1]` onto `[min_forward, max_forward]`, clamped to that
interval. -/
theorem C8_forward_curve (x : ℚ) (cfg : AxisConfig)
    (hdb0 : 0 ≤ cfg.deadband) (hdb1 : cfg.deadband < 1)
    (hmin : 0 ≤ cfg.min_forward_dir) (hmm : cfg.min_forward_dir ≤ cfg.max_forward_dir)
    (hy : 0 < (if cfg.inverted then -x else x))
    (hdb : cfg.deadband ≤ (if cfg.inverted then -x else x)) :
    apply_curve x cfg =
      np_clip (cfg.min_forward_dir +
          ((if cfg.inverted then -x else x) - cfg.deadband) / (1 - cfg.deadband) *
          (cfg.max_forward_dir - cfg.min_forward_dir))
        cfg.min_forward_dir cfg.max_forward_dir := by
  set y := if cfg.inverted then -x else x with hy_def
  have habs : ¬ (|y| < cfg.deadband) := by
    rw [abs_of_pos hy]
    exact not_lt.mpr hdb
  rw [apply_curve]
  rw [← hy_def]
  rw [if_neg habs, if_pos hy]
  have hne : (1 : ℚ) - cfg.deadband ≠ 0 := by linarith
  field_simp
  ring

/-- C8 (witness): the spec scenario — deadband 0.2, min 0.25, max 1.0,
raw sample 0.6 not inverted — shapes to `5/8 = 0.625`. -/
theorem C8_forward_curve_witness :
    (0 : ℚ) ≤ ps4_x_axis_no_invert.deadband ∧
    ps4_x_axis_no_invert.deadband < 1 ∧
    (0 : ℚ) ≤ ps4_x_axis_no_invert.min_forward_dir ∧
    ps4_x_axis_no_invert.min_forward_dir ≤ ps4_x_axis_no_invert.max_forward_dir ∧
    (0 : ℚ) < (if ps4_x_axis_no_invert.inverted then -(3/5 : ℚ) else (3/5 : ℚ)) ∧
    ps4_x_axis_no_invert.deadband ≤
      (if ps4_x_axis_no_invert.inverted then -(3/5 : ℚ) else (3/5 : ℚ)) ∧
    apply_curve (3/5) ps4_x_axis_no_invert = 5/8 := by
  refine ⟨by norm_num [ps4_x_axis_no_invert], by norm_num [ps4_x_axis_no_invert],
          by norm_num [ps4_x_axis_no_invert], by norm_num [ps4_x_axis_no_invert],
          by norm_num [ps4_x_axis_no_invert], by norm_num [ps4_x_axis_no_invert], ?_⟩
  rw [C8_forward_curve (3/5) ps4_x_axis_no_invert
    (by norm_num [ps4_x_axis_no_invert]) (by norm_num [ps4_x_axis_no_invert])
    (by norm_num [ps4_x_axis_no_invert]) (by norm_num [ps4_x_axis_no_invert])
    (by norm_num [ps4_x_axis_no_invert]) (by norm_num [ps4_x_axis_no_invert])]
  norm_num [np_clip, ps4_x_axis_no_invert]

/-- C4: the policy-output path does attach the gain vectors on the first
call only (first two conjuncts), but the claim fails on the hold-mode
variant: `create_proto_hold` never increments `_count`, so a generator
streaming hold commands keeps `_count = 1` and attaches the gains on
every command, not only the first — contradicting the source's own
"Fill in gains the first dt" comment. -/
theorem C4_gains_first_call_bug (config : OrbitConfig ℚ) (policy : ℕ → List ℚ → List ℚ)
    (ext : ℕ → Snapshot × List ℚ) :
    (generator_proto config policy ext 0).gains.isSome = true ∧
    (∀ n, 0 < n → (generator_proto config policy ext n).gains = none) ∧
    (∀ (s : GenState) (snaps : ℕ → Snapshot), s.count = 1 →
      ∀ n, (hold_stream s snaps n).gains.isSome = true) := by
  refine ⟨?_, ?_, ?_⟩
  · rw [(generator_proto_spec config policy ext 0).2]
    simp
  · intro n hn
    rw [(generator_proto_spec config policy ext n).2]
    simp [Nat.pos_iff_ne_zero.mp hn]
  · intro s snaps hs n
    simp [hold_stream, create_proto_hold, hs]

/-- C4 (witness): the third policy command carries no gains, while the
sixth hold-mode command of a fresh generator still carries gains. -/
theorem C4_gains_witness :
    0 < 2 ∧
    (generator_proto demo_config demo_policy demo_ext 2).gains = none ∧
    initial_gen_state.count = 1 ∧
    (hold_stream initial_gen_state (fun _ => demo_snapshot) 5).gains.isSome = true :=
  ⟨by decide,
   (C4_gains_first_call_bug demo_config demo_policy demo_ext).2.1 2 (by decide),
   rfl,
   (C4_gains_first_call_bug demo_config demo_policy demo_ext).2.2 initial_gen_state
     (fun _ => demo_snapshot) rfl 5⟩

/-- C7: with zero velocities, identity orientation, all joint positions at
their policy-native neutral offsets, zero joint velocities, zero velocity
command and the initial all-zero `last_action`, `collect_inputs` yields a
48-element vector of zeros except the projected-gravity block (indices
6..8), which is `[0, 0, -1]`. -/
theorem C7_neutral_observation (d : String → ℚ) (kp kd : List (String × ℚ)) (sh asc : ℚ) :
    collect_inputs (c7_snapshot d) (c7_config d kp kd sh asc) [0, 0, 0]
      initial_gen_state.last_action =
      List.replicate 6 0 ++ [0, 0, -1] ++ List.replicate 39 0 ∧
    (collect_inputs (c7_snapshot d) (c7_config d kp kd sh asc) [0, 0, 0]
      initial_gen_state.last_action).length = 48 := by
  have h : collect_inputs (c7_snapshot d) (c7_config d kp kd sh asc) [0, 0, 0]
      initial_gen_state.last_action =
      List.replicate 6 0 ++ [0, 0, -1] ++ List.replicate 39 0 := by
    simp [collect_inputs, c7_snapshot, c7_config, initial_gen_state,
      get_base_linear_velocity, get_base_angular_velocity, get_projected_gravity,
      quat_rotate, quat_mul, quat_conj, get_joint_positions, get_joint_velocity,
      find_ordering, reorder, dict_to_list_vals, dict_to_list, dict_get,
      ordered_joint_names_orbit, ordered_joint_names_bosdyn, List.find?,
      List.replicate]
  exact ⟨h, by rw [h]; rfl⟩

/-- C3 (counterexample): a training configuration in which no joint name
matches any actuator regex (the sole group's regex rejects everything)
does NOT fail at load time: `load_configuration` returns an `OrbitConfig`
whose stiffness entry for the unmatched joint `fl_hx` is the `None`
placeholder. -/
theorem C3_unmatched_returns_config :
    load_configuration c3_unmatched_config = .ok c3_loaded_config ∧
    dict_get c3_loaded_config.kp "fl_hx" = some none := by
  exact ⟨rfl, rfl⟩

/-- C3 (amended): a missing required key is fatal at load time
(`load_configuration` raises before any thread starts), but an unmatched
joint name is not: load succeeds and the returned `OrbitConfig` keeps the
`None` placeholder for every joint no actuator regex matches. -/
theorem C3_load_failure_amended :
    (∀ c : RawEnvConfig, c.actuators = none →
      load_configuration c = .error "KeyError: actuators") ∧
    (∀ (c : RawEnvConfig) (gs : List (String × ActuatorGroup))
       (cfg : OrbitConfig (Option ℚ)) (n : String),
      c.actuators = some gs → n ∈ ordered_joint_names_orbit →
      (∀ g ∈ gs, ∀ r ∈ g.2.joint_names_expr.head?, r n = false) →
      load_configuration c = .ok cfg →
      dict_get cfg.kp n = some none) := by
  constructor
  · intro c hc
    simp [load_configuration, hc]
  · intro c gs cfg n hc hn hall hok
    simp only [load_configuration, hc] at hok
    split at hok
    · cases hok
    next kp1 kd1 heq =>
      split at hok
      · cases hok
      next djd heq2 =>
        split at hok
        · cases hok
        next asc heq3 =>
          split at hok
          · cases hok
          next pos heq4 =>
            split at hok
            · cases hok
            next sh heq5 =>
              injection hok with hok
              subst hok
              have hgu := apply_groups_unmatched n gs
                (dict_from_lists ordered_joint_names_orbit
                  (List.replicate 12 (none : Option ℚ)))
                (dict_from_lists ordered_joint_names_orbit
                  (List.replicate 12 (none : Option ℚ)))
                (kp1, kd1) hall heq
              simp only at hgu
              simpa [hgu] using dict_get_init_placeholder n hn

/-- C3 (witness): the missing-key config fails with a `KeyError`, while
the unmatched-joint config loads successfully with a `None` placeholder
for `fl_hx`. -/
theorem C3_load_failure_witness :
    load_configuration c3_missing_key_config = .error "KeyError: actuators" ∧
    dict_get c3_loaded_config.kp "fl_hx" = some none :=
  ⟨C3_load_failure_amended.1 c3_missing_key_config rfl,
   C3_load_failure_amended.2 c3_unmatched_config
     [("legs", { joint_names_expr := [fun _ => false], stiffness := 5, damping := 1 })]
     c3_loaded_config "fl_hx" rfl (by decide)
     (by
       rintro g hg r hr
       rw [List.mem_singleton] at hg
       subst hg
       simp only [List.head?_cons, Option.mem_def, Option.some.injEq] at hr
       subst hr
       rfl)
     rfl⟩

end SpotRL
